import Mathlib

/-!
Verification of the cat-guess-game repository (src/src/App.tsx) against its
natural-language specification.  The React component's state hooks are
embedded as an explicit `AppState` record, and each event handler becomes a
pure state-transition function.  Random draws (`Math.floor(Math.random() *
items.length)`) are embedded as explicit `Nat` indices supplied to the
transition functions; a draw produced by the source expression is always
`< items.length`, which appears as a hypothesis where relevant.  Timers
(`setInterval` / `setTimeout`) are embedded by sequencing the tick function
and returning the scheduled delay explicitly.
-/

namespace CatGuess

/-- Embeds the `Item` interface of App.tsx (lines 6-10). -/
structure Item where
  id : String
  name : String
  image : String
deriving DecidableEq, Repr

/-- Embeds the `GameState` union type (line 12). -/
inductive GameState where
  | idle
  | guessing
  | success
  | fail
deriving DecidableEq, Repr

/-- Embeds the `CatEmotion` union type (line 13). -/
inductive CatEmotion where
  | neutral
  | thinking
  | happy
  | sad
deriving DecidableEq, Repr

/-- Embeds the `DEFAULT_ITEMS` constant (lines 20-31). -/
def DEFAULT_ITEMS : List Item :=
  [ { id := "default_1"
      name := "纸巾"
      image := "data:image/svg+xml;utf8,<svg xmlns=\"http://www.w3.org/2000/svg\" viewBox=\"0 0 100 100\"><rect x=\"20\" y=\"40\" width=\"60\" height=\"40\" fill=\"%23eee\" stroke=\"%23ccc\" stroke-width=\"2\"/><path d=\"M30 40 Q50 10 70 40\" fill=\"%23fff\" stroke=\"%23ddd\"/></svg>" },
    { id := "default_2"
      name := "萝卜"
      image := "data:image/svg+xml;utf8,<svg xmlns=\"http://www.w3.org/2000/svg\" viewBox=\"0 0 100 100\"><path d=\"M50 90 Q20 40 50 40 Q80 40 50 90\" fill=\"orange\"/><path d=\"M50 40 L40 10 M50 40 L50 5 M50 40 L60 10\" stroke=\"green\" stroke-width=\"3\"/></svg>" } ]

/-- Embeds the dimension computation of `compressImage` (lines 36-57) over
exact rationals: the decoded image has size `w × h`, and the function scales
it according to the two-branch conditional before drawing onto the canvas.
The default bounds at the only call site (line 230) are `400 × 400`. -/
def compressImageDims (w h maxW maxH : ℚ) : ℚ × ℚ :=
  if h < w then
    if maxW < w then (maxW, h * (maxW / w)) else (w, h)
  else
    if maxH < h then (w * (maxH / h), maxH) else (w, h)

/-- The three error codes thrown by `analyzeImage` (lines 61, 77, 81). -/
inductive AnalyzeError where
  | MISSING_KEY
  | API_ERROR
  | EMPTY_RESPONSE
deriving DecidableEq, Repr

/-- Executable embedding of the JavaScript `String.prototype.trim()` used at
line 80: drops whitespace from both ends of the string. -/
def jsTrim (s : String) : String :=
  String.mk (((s.data.dropWhile Char.isWhitespace).reverse.dropWhile Char.isWhitespace).reverse)

/-- Abstraction of the fetch result seen by `analyzeImage`: `ok` is
`response.ok`, and `text` is the optional string reached by the chain
`data.candidates?.[0]?.content?.parts?.[0]?.text` (line 80), `none` when any
step of the chain is absent. -/
structure GeminiResponse where
  ok : Bool
  text : Option String
deriving DecidableEq, Repr

/-- Embeds `analyzeImage` (lines 60-83).  The first component is the
thrown-error / returned-label outcome; the second component records whether
the `fetch` request was issued at all (`false` exactly when the function
throws before reaching `fetch`).  The guard `if (!apiKey)` is string
emptiness, since the key state is initialized to `""` when absent. -/
def analyzeImage (apiKey : String) (resp : GeminiResponse) :
    Except AnalyzeError String × Bool :=
  if apiKey = "" then (Except.error AnalyzeError.MISSING_KEY, false)
  else if resp.ok = false then (Except.error AnalyzeError.API_ERROR, true)
  else
    match resp.text with
    | none => (Except.error AnalyzeError.EMPTY_RESPONSE, true)
    | some t =>
      if jsTrim t = "" then (Except.error AnalyzeError.EMPTY_RESPONSE, true)
      else (Except.ok (jsTrim t), true)

/-- Embeds the `useState` hooks of the `App` component (lines 86-114) as one
record.  `draggedItemIndex` and the optional fields use `Option` for the
source's `null` values. -/
structure AppState where
  items : List Item
  geminiKey : String
  score : Nat
  gameState : GameState
  catEmotion : CatEmotion
  targetItem : Option Item
  catChoice : Option Item
  catMessage : String
  isAiAnalyzing : Bool
  isAiTalking : Bool
  errorMsg : String
  isAddModalOpen : Bool
  isSettingsOpen : Bool
  newItemName : String
  newItemImage : Option String
  draggedItemIndex : Option Nat
deriving DecidableEq, Repr

/-- Embeds the `useState` initializer for `items` (lines 86-94):
`localStorage.getItem` yields `saved : Option String`; the truthiness test
`saved ? ... : DEFAULT_ITEMS` sends both `none` and the empty string to the
defaults, and a `JSON.parse` failure (the `catch` branch) is a `parseStored`
result of `none`. -/
def initItems (parseStored : String → Option (List Item))
    (saved : Option String) : List Item :=
  match saved with
  | none => DEFAULT_ITEMS
  | some s =>
    if s = "" then DEFAULT_ITEMS
    else
      match parseStored s with
      | none => DEFAULT_ITEMS
      | some l => l

/-- The user-visible rejection message of `handleDeleteItem` (line 165). -/
def deleteErrorMsg : String := "仓库里至少要留一个东西喵！"

/-- Embeds `handleDeleteItem` (lines 161-170).  The scheduled
`setTimeout(() => setErrorMsg(''), 3000)` clearing of the banner is not
modelled; only the state transition performed synchronously is. -/
def handleDeleteItem (s : AppState) (itemId : String) : AppState :=
  if s.gameState ≠ GameState.idle then s
  else if s.items.length ≤ 1 then { s with errorMsg := deleteErrorMsg }
  else { s with items := s.items.filter (fun item => item.id != itemId) }

/-- Embeds `handleDragStart` (lines 136-142); the DOM opacity tweak is
presentational and not modelled. -/
def handleDragStart (s : AppState) (index : Nat) : AppState :=
  if s.gameState ≠ GameState.idle then s
  else { s with draggedItemIndex := some index }

/-- The splice-out / splice-in pair of `handleDragOver` (lines 147-149):
`newItems.splice(draggedItemIndex, 1)[0]` extracts the dragged element and
`newItems.splice(index, 0, draggedItem)` reinserts it.  Both indices come
from the rendered item list, hence are `< items.length` whenever the source
fires the handler. -/
def moveItem (l : List Item) (fromIdx toIdx : Nat) : List Item :=
  match l[fromIdx]? with
  | some dragged => (l.eraseIdx fromIdx).insertIdx toIdx dragged
  | none => l

/-- Embeds `handleDragOver` (lines 144-152). -/
def handleDragOver (s : AppState) (index : Nat) : AppState :=
  match s.draggedItemIndex with
  | none => s
  | some fromIdx =>
    if fromIdx = index then s
    else { s with items := moveItem s.items fromIdx index
                  draggedItemIndex := some index }

/-- Embeds the synchronous state updates of `startCatGuessing`
(lines 172-179); the `speak` side channel is fire-and-forget and not
modelled, and the interval ticks are sequenced by `runGuessCycle` below. -/
def startCatGuessing (s : AppState) : AppState :=
  { s with gameState := GameState.guessing
           catEmotion := CatEmotion.thinking
           catChoice := none
           catMessage := "喵呜...让我想想..."
           isAiTalking := true }

/-- Embeds `handleItemClick` (lines 154-159): sets the target and begins the
guess. -/
def handleItemClick (s : AppState) (item : Item) : AppState :=
  if s.gameState ≠ GameState.idle then s
  else startCatGuessing { s with targetItem := some item }

/-- Embeds one 200 ms interval tick (lines 181-185): `draw` is the value of
`Math.floor(Math.random() * items.length)` for that tick; the chosen item
becomes the cat's focus (`setCatChoice`), and the scroll-into-view is
presentational. -/
def applyTick (s : AppState) (draw : Nat) : AppState :=
  { s with catChoice := s.items[draw]? }

/-- Embeds `finalizeGuess` (lines 193-215).  `draw` is the resolution value
of `Math.floor(Math.random() * currentItems.length)`, always `< items.length`
in the source.  The second component is the delay of the timeout scheduled by
the success branch (`some 3000`), whose action is `successTimeoutAction`. -/
def finalizeGuess (s : AppState) (userTarget : Item) (draw : Nat) :
    AppState × Option Nat :=
  match s.items[draw]? with
  | none => (s, none)
  | some finalPick =>
    if finalPick.id = userTarget.id then
      ({ s with catChoice := some finalPick
                gameState := GameState.success
                catEmotion := CatEmotion.happy
                score := s.score + 1
                catMessage := "猜对了喵！" }, some 3000)
    else
      ({ s with catChoice := some finalPick
                gameState := GameState.fail
                catEmotion := CatEmotion.sad
                catMessage := "没猜中喵..." }, none)

/-- Embeds the body of the `setTimeout` scheduled on success
(lines 204-209). -/
def successTimeoutAction (s : AppState) : AppState :=
  { s with gameState := GameState.idle
           catEmotion := CatEmotion.neutral
           catMessage := "人类，快选一个东西让我猜！"
           isAiTalking := false }

/-- One full guess cycle: `startCatGuessing`, the twelve interval ticks with
focus draws `tickDraws`, then `finalizeGuess` with resolution draw
`finalDraw` (the interval is cleared on the twelfth tick, line 187). -/
def runGuessCycle (s : AppState) (userTarget : Item) (tickDraws : List Nat)
    (finalDraw : Nat) : AppState × Option Nat :=
  finalizeGuess (tickDraws.foldl applyTick (startCatGuessing s)) userTarget finalDraw

/-- Embeds the retry button of the fail-state UI (line 328):
`targetItem && startCatGuessing(targetItem)`. -/
def retryGuess (s : AppState) : AppState :=
  match s.targetItem with
  | some _ => startCatGuessing s
  | none => s

/-- Embeds the choose-another button of the fail-state UI (line 331):
`setGameState('idle'); setCatEmotion('neutral'); setIsAiTalking(false)`.
Note that the source does not touch `targetItem` here. -/
def chooseAnother (s : AppState) : AppState :=
  { s with gameState := GameState.idle
           catEmotion := CatEmotion.neutral
           isAiTalking := false }

/-- Embeds `saveNewItem` (lines 249-256); `freshId` is the value of
`Date.now().toString()`.  The guard is the truthiness test
`if (newItemName && newItemImage)`. -/
def saveNewItem (s : AppState) (freshId : String) : AppState :=
  match s.newItemImage with
  | some img =>
    if s.newItemName ≠ "" then
      { s with items := s.items ++ [{ id := freshId, name := s.newItemName, image := img }]
               isAddModalOpen := false
               newItemName := ""
               newItemImage := none }
    else s
  | none => s

/-- The outcome of the resolution draw: whether the final pick's id matches
the target's id (line 198). -/
def guessOutcome (l : List Item) (userTarget : Item) (finalDraw : Nat) : Bool :=
  match l[finalDraw]? with
  | some pick => pick.id == userTarget.id
  | none => false

/-- The repository-mutating operations reachable from the UI: delete
(trash button), save from the add-item modal (after the user typed `name`
and the compressor produced `image`), and the drag pair. -/
inductive RepoOp where
  | deleteItem (itemId : String)
  | save (freshId name image : String)
  | dragStart (index : Nat)
  | dragOver (index : Nat)

/-- Applies one repository operation as the corresponding handler does. -/
def applyRepoOp (s : AppState) : RepoOp → AppState
  | RepoOp.deleteItem itemId => handleDeleteItem s itemId
  | RepoOp.save freshId name image =>
    saveNewItem { s with newItemName := name, newItemImage := some image } freshId
  | RepoOp.dragStart i => handleDragStart s i
  | RepoOp.dragOver i => handleDragOver s i

/-- Applies a sequence of repository operations in order. -/
def applyRepoOps (s : AppState) : List RepoOp → AppState
  | [] => s
  | op :: rest => applyRepoOps (applyRepoOp s op) rest

/-- Side conditions under which the source fires the operation: ids from
`Date.now()` are fresh, and drag indices come from the rendered list, hence
are in range. -/
def validOp (s : AppState) : RepoOp → Prop
  | RepoOp.deleteItem _ => True
  | RepoOp.save freshId _ _ => freshId ∉ s.items.map Item.id
  | RepoOp.dragStart i => i < s.items.length
  | RepoOp.dragOver i => i < s.items.length

/-- Every operation of the sequence is valid in the state it runs from. -/
def validOps : AppState → List RepoOp → Prop
  | _, [] => True
  | s, op :: rest => validOp s op ∧ validOps (applyRepoOp s op) rest

/-- Repository well-formedness: nonempty, with pairwise distinct item ids
(the data model's "unique string" id). -/
def goodRepo (s : AppState) : Prop :=
  s.items ≠ [] ∧ (s.items.map Item.id).Nodup

/-! Concrete states used by witnesses and counterexamples. -/

/-- A small concrete item. -/
def itemA : Item := { id := "a", name := "A", image := "imgA" }

/-- A second small concrete item. -/
def itemB : Item := { id := "b", name := "B", image := "imgB" }

/-- A concrete idle state holding two items, as after startup. -/
def baseState : AppState :=
  { items := [itemA, itemB]
    geminiKey := ""
    score := 0
    gameState := GameState.idle
    catEmotion := CatEmotion.neutral
    targetItem := none
    catChoice := none
    catMessage := "人类，快选一个东西让我猜！"
    isAiAnalyzing := false
    isAiTalking := false
    errorMsg := ""
    isAddModalOpen := false
    isSettingsOpen := false
    newItemName := ""
    newItemImage := none
    draggedItemIndex := none }

/-- The fail state reached by selecting `itemA` and letting every draw of the
cycle resolve to index 1 (`itemB`), as in the spec's retry scenario. -/
def failState : AppState :=
  (runGuessCycle { baseState with targetItem := some itemA } itemA
    [1, 1, 1, 1, 1, 1, 1, 1, 1, 1, 1, 1] 1).1

/-- A fail state with the add-item modal open, a pending name typed in and a
compressed image present: the exact situation in which `saveNewItem` fires
outside `idle`. -/
def failAddState : AppState :=
  { baseState with gameState := GameState.fail
                   catEmotion := CatEmotion.sad
                   targetItem := some itemA
                   catChoice := some itemB
                   catMessage := "没猜中喵..."
                   isAiTalking := true
                   isAddModalOpen := true
                   newItemName := "X"
                   newItemImage := some "imgX" }

/-! Helper equations for `finalizeGuess`. -/

/-- Unfolding of `finalizeGuess` in the matching case. -/
lemma finalizeGuess_eq_pos (s : AppState) (tg : Item) (d : Nat) (pick : Item)
    (hd : s.items[d]? = some pick) (h : pick.id = tg.id) :
    finalizeGuess s tg d =
      ({ s with catChoice := some pick
                gameState := GameState.success
                catEmotion := CatEmotion.happy
                score := s.score + 1
                catMessage := "猜对了喵！" }, some 3000) := by
  unfold finalizeGuess
  rw [hd]
  exact if_pos h

/-- Unfolding of `finalizeGuess` in the non-matching case. -/
lemma finalizeGuess_eq_neg (s : AppState) (tg : Item) (d : Nat) (pick : Item)
    (hd : s.items[d]? = some pick) (h : ¬ pick.id = tg.id) :
    finalizeGuess s tg d =
      ({ s with catChoice := some pick
                gameState := GameState.fail
                catEmotion := CatEmotion.sad
                catMessage := "没猜中喵..." }, none) := by
  unfold finalizeGuess
  rw [hd]
  exact if_neg h

/-- C3: at resolution the engine takes the item drawn from the repository and
compares its id to the target's: a match yields the `success` state, a score
increment of exactly one, the success message and a 3-second scheduled return
to `idle`; a mismatch yields the `fail` state and the failure message with
the score unchanged. -/
theorem cat_guess_C3 (s : AppState) (userTarget : Item) (draw : Nat) (pick : Item)
    (hdraw : s.items[draw]? = some pick) :
    (pick.id = userTarget.id →
      (finalizeGuess s userTarget draw).1.gameState = GameState.success ∧
      (finalizeGuess s userTarget draw).1.score = s.score + 1 ∧
      (finalizeGuess s userTarget draw).1.catChoice = some pick ∧
      (finalizeGuess s userTarget draw).1.catMessage = "猜对了喵！" ∧
      (finalizeGuess s userTarget draw).2 = some 3000 ∧
      (successTimeoutAction (finalizeGuess s userTarget draw).1).gameState = GameState.idle) ∧
    (pick.id ≠ userTarget.id →
      (finalizeGuess s userTarget draw).1.gameState = GameState.fail ∧
      (finalizeGuess s userTarget draw).1.score = s.score ∧
      (finalizeGuess s userTarget draw).1.catChoice = some pick ∧
      (finalizeGuess s userTarget draw).1.catMessage = "没猜中喵..." ∧
      (finalizeGuess s userTarget draw).2 = none) := by
  constructor
  · intro h
    rw [finalizeGuess_eq_pos s userTarget draw pick hdraw h]
    exact ⟨rfl, rfl, rfl, rfl, rfl, rfl⟩
  · intro h
    rw [finalizeGuess_eq_neg s userTarget draw pick hdraw h]
    exact ⟨rfl, rfl, rfl, rfl, rfl⟩

/-- Witness for C3 at concrete states: a matching draw on `baseState` with
target `itemA`, and a mismatching one. -/
theorem cat_guess_C3_witness :
    (finalizeGuess baseState itemA 0).1.gameState = GameState.success ∧
    (finalizeGuess baseState itemA 0).1.score = baseState.score + 1 ∧
    (finalizeGuess baseState itemA 1).1.gameState = GameState.fail ∧
    (finalizeGuess baseState itemA 1).1.score = baseState.score := by
  have hpos := (cat_guess_C3 baseState itemA 0 itemA (by decide)).1 rfl
  have hneg := (cat_guess_C3 baseState itemA 1 itemB (by decide)).2 (by decide)
  exact ⟨hpos.1, hpos.2.1, hneg.1, hneg.2.1⟩

/-- C4 counterexample: the claim says choose-another clears the target item,
but the source's choose-another button leaves `targetItem` set: from the
reachable fail state below the target is still `itemA` after the
transition. -/
theorem cat_guess_C4_cex :
    failState.gameState = GameState.fail ∧
    failState.targetItem = some itemA ∧
    (chooseAnother failState).gameState = GameState.idle ∧
    (chooseAnother failState).targetItem = some itemA ∧
    (chooseAnother failState).targetItem ≠ none := by decide

/-- C4 as amended: from the fail state, retry re-enters `guessing` with the
same target still selected, and choose-another returns to `idle` (neutral
emotion, speech bubble hidden) but leaves the target item set rather than
clearing it. -/
theorem cat_guess_C4_amended (s : AppState) (t : Item)
    (hfail : s.gameState = GameState.fail) (ht : s.targetItem = some t) :
    (retryGuess s).gameState = GameState.guessing ∧
    (retryGuess s).targetItem = some t ∧
    (chooseAnother s).gameState = GameState.idle ∧
    (chooseAnother s).targetItem = some t ∧
    (chooseAnother s).catEmotion = CatEmotion.neutral ∧
    (chooseAnother s).isAiTalking = false := by
  have hretry : retryGuess s = startCatGuessing s := by
    unfold retryGuess
    rw [ht]
  rw [hretry]
  exact ⟨rfl, ht, rfl, ht, rfl, rfl⟩

/-- Witness for the amended C4 at the concrete fail state. -/
theorem cat_guess_C4_amended_witness :
    (retryGuess failState).gameState = GameState.guessing ∧
    (retryGuess failState).targetItem = some itemA ∧
    (chooseAnother failState).gameState = GameState.idle ∧
    (chooseAnother failState).targetItem = some itemA ∧
    (chooseAnother failState).catEmotion = CatEmotion.neutral ∧
    (chooseAnother failState).isAiTalking = false :=
  cat_guess_C4_amended failState itemA (by decide) (by decide)

/-- C5 counterexample: the claim says Add leaves the collection unchanged
outside `idle`, but `saveNewItem` checks only the pending name and image, so
in the fail state with the add-item modal filled in it appends a new item. -/
theorem cat_guess_C5_cex :
    failAddState.gameState ≠ GameState.idle ∧
    (saveNewItem failAddState "1700000000000").items ≠ failAddState.items ∧
    (saveNewItem failAddState "1700000000000").items =
      failAddState.items ++ [{ id := "1700000000000", name := "X", image := "imgX" }] := by
  decide

/-- C5 as amended: outside `idle`, Delete leaves the collection unchanged and
drag-start refuses to arm a drag (so no reorder can begin), but Add performs
no game-state check: with a pending name and image it appends the new item in
any game state. -/
theorem cat_guess_C5_amended (s : AppState) (hgs : s.gameState ≠ GameState.idle)
    (itemId : String) (i : Nat) (freshId : String) :
    (handleDeleteItem s itemId).items = s.items ∧
    handleDragStart s i = s ∧
    (s.draggedItemIndex = none → handleDragOver s i = s) ∧
    (∀ img, s.newItemImage = some img → s.newItemName ≠ "" →
      (saveNewItem s freshId).items =
        s.items ++ [{ id := freshId, name := s.newItemName, image := img }]) := by
  refine ⟨?_, ?_, ?_, ?_⟩
  · unfold handleDeleteItem
    rw [if_pos hgs]
  · unfold handleDragStart
    rw [if_pos hgs]
  · intro hd
    unfold handleDragOver
    rw [hd]
  · intro img himg hname
    unfold saveNewItem
    rw [himg]
    exact congrArg AppState.items (if_pos hname)

/-- Witness for the amended C5 at the concrete fail state with modal data. -/
theorem cat_guess_C5_amended_witness :
    (handleDeleteItem failAddState "a").items = failAddState.items ∧
    handleDragStart failAddState 0 = failAddState ∧
    (saveNewItem failAddState "99").items =
      failAddState.items ++ [{ id := "99", name := "X", image := "imgX" }] := by
  have h := cat_guess_C5_amended failAddState (by decide) "a" 0 "99"
  exact ⟨h.1, h.2.1, h.2.2.2 "imgX" rfl (by decide)⟩

/-- C6: the recognition client fails with MISSING_KEY exactly when no key is
configured, and then issues no request; with a key it fails with API_ERROR
exactly on a non-success response, with EMPTY_RESPONSE exactly when a success
response has no usable text (absent, or trimming to empty), and otherwise
returns the trimmed label. -/
theorem cat_guess_C6 (apiKey : String) (resp : GeminiResponse) :
    ((analyzeImage apiKey resp).1 = Except.error AnalyzeError.MISSING_KEY ↔ apiKey = "") ∧
    (apiKey = "" → (analyzeImage apiKey resp).2 = false) ∧
    (apiKey ≠ "" →
      ((analyzeImage apiKey resp).1 = Except.error AnalyzeError.API_ERROR ↔ resp.ok = false)) ∧
    (apiKey ≠ "" → resp.ok = true →
      ((analyzeImage apiKey resp).1 = Except.error AnalyzeError.EMPTY_RESPONSE ↔
        (resp.text = none ∨ ∃ t, resp.text = some t ∧ jsTrim t = ""))) ∧
    (apiKey ≠ "" → resp.ok = true → ∀ t, resp.text = some t → jsTrim t ≠ "" →
      (analyzeImage apiKey resp).1 = Except.ok (jsTrim t)) := by
  obtain ⟨ok, text⟩ := resp
  by_cases hk : apiKey = ""
  · simp [analyzeImage, hk]
  · cases ok
    · simp [analyzeImage, hk]
    · cases text with
      | none => simp [analyzeImage, hk]
      | some t =>
        by_cases ht : jsTrim t = "" <;>
          simp [analyzeImage, hk, ht]

/-- Witness for C6 covering each branch at concrete inputs. -/
theorem cat_guess_C6_witness :
    (analyzeImage "" { ok := true, text := some "cat" }).1 =
      Except.error AnalyzeError.MISSING_KEY ∧
    (analyzeImage "" { ok := true, text := some "cat" }).2 = false ∧
    (analyzeImage "k" { ok := false, text := none }).1 =
      Except.error AnalyzeError.API_ERROR ∧
    (analyzeImage "k" { ok := true, text := some "  " }).1 =
      Except.error AnalyzeError.EMPTY_RESPONSE ∧
    (analyzeImage "k" { ok := true, text := some " cat " }).1 = Except.ok "cat" := by
  refine ⟨(cat_guess_C6 "" _).1.mpr rfl, (cat_guess_C6 "" _).2.1 rfl, ?_, ?_, ?_⟩
  · exact ((cat_guess_C6 "k" _).2.2.1 (by decide)).mpr rfl
  · exact ((cat_guess_C6 "k" _).2.2.2.1 (by decide) rfl).mpr
      (Or.inr ⟨"  ", rfl, by decide⟩)
  · have h := (cat_guess_C6 "k" { ok := true, text := some " cat " }).2.2.2.2
      (by decide) rfl " cat " rfl (by decide)
    rw [h]
    exact congrArg Except.ok (by decide)

/-- C9: at load time an absent record or a parse failure initializes the
repository to the built-in two-item default set, and a successfully parsed
record initializes it to the stored collection.  The hypothesis records that
the embedded parser, like `JSON.parse`, rejects the empty string (which the
source's truthiness test also sends to the defaults). -/
theorem cat_guess_C9 (parseStored : String → Option (List Item))
    (hparse : parseStored "" = none) :
    initItems parseStored none = DEFAULT_ITEMS ∧
    (∀ s, parseStored s = none → initItems parseStored (some s) = DEFAULT_ITEMS) ∧
    (∀ s l, parseStored s = some l → initItems parseStored (some s) = l) := by
  refine ⟨rfl, ?_, ?_⟩
  · intro s hs
    by_cases h : s = "" <;> simp [initItems, h, hs]
  · intro s l hl
    have hne : s ≠ "" := by
      intro h
      rw [h, hparse] at hl
      exact Option.noConfusion hl
    simp [initItems, hne, hl]

/-- Witness for C9 with concrete parsers and stored records. -/
theorem cat_guess_C9_witness :
    initItems (fun _ => none) none = DEFAULT_ITEMS ∧
    initItems (fun _ => none) (some "garbage") = DEFAULT_ITEMS ∧
    initItems (fun s => if s = "stored" then some [itemA] else none) (some "stored") =
      [itemA] := by
  refine ⟨(cat_guess_C9 (fun _ => none) rfl).1,
          (cat_guess_C9 (fun _ => none) rfl).2.1 "garbage" rfl,
          (cat_guess_C9 (fun s => if s = "stored" then some [itemA] else none)
            (by decide)).2.2 "stored" [itemA] (by simp)⟩

/-- C10: a delete in `idle` with at least two items removes exactly the items
carrying the given id, keeps every remaining item (all fields) in its
relative order, and leaves score, game state, target item, message and error
banner unchanged. -/
theorem cat_guess_C10 (s : AppState) (itemId : String)
    (hidle : s.gameState = GameState.idle) (h2 : 2 ≤ s.items.length) :
    (handleDeleteItem s itemId).items = s.items.filter (fun it => it.id != itemId) ∧
    (handleDeleteItem s itemId).items.Sublist s.items ∧
    (∀ it, it ∈ (handleDeleteItem s itemId).items ↔ it ∈ s.items ∧ it.id ≠ itemId) ∧
    (handleDeleteItem s itemId).score = s.score ∧
    (handleDeleteItem s itemId).gameState = s.gameState ∧
    (handleDeleteItem s itemId).targetItem = s.targetItem ∧
    (handleDeleteItem s itemId).catMessage = s.catMessage ∧
    (handleDeleteItem s itemId).errorMsg = s.errorMsg := by
  have hdef : handleDeleteItem s itemId =
      { s with items := s.items.filter (fun it => it.id != itemId) } := by
    unfold handleDeleteItem
    rw [if_neg (by simp [hidle]), if_neg (by omega)]
  rw [hdef]
  refine ⟨rfl, List.filter_sublist _, ?_, rfl, rfl, rfl, rfl, rfl⟩
  intro it
  simp [List.mem_filter]

/-- Witness for C10: deleting "a" from the concrete two-item idle state. -/
theorem cat_guess_C10_witness :
    (handleDeleteItem baseState "a").items = [itemB] ∧
    (handleDeleteItem baseState "a").score = baseState.score ∧
    (handleDeleteItem baseState "a").gameState = baseState.gameState := by
  have h := cat_guess_C10 baseState "a" rfl (by decide)
  refine ⟨?_, h.2.2.2.1, h.2.2.2.2.1⟩
  rw [h.1]
  decide

/-! Permutation properties of the drag-reorder splice pair. -/

/-- Inserting at a position within the list permutes with consing. -/
lemma insertIdx_perm_cons {α : Type _} (x : α) :
    ∀ (n : Nat) (l : List α), n ≤ l.length → (l.insertIdx n x).Perm (x :: l)
  | 0, l, _ => by simp
  | n + 1, [], h => absurd h (by simp)
  | n + 1, a :: l, h => by
    rw [List.insertIdx_succ_cons]
    exact ((insertIdx_perm_cons x n l (Nat.le_of_succ_le_succ h)).cons a).trans
      (List.Perm.swap x a l)

/-- A list permutes with its element at `n` consed onto the remainder. -/
lemma perm_cons_eraseIdx {α : Type _} :
    ∀ (l : List α) (n : Nat) (x : α), l[n]? = some x → l.Perm (x :: l.eraseIdx n)
  | [], n, x, h => by simp at h
  | a :: l, 0, x, h => by
    obtain rfl : a = x := by simpa using h
    simp
  | a :: l, n + 1, x, h => by
    have ih := perm_cons_eraseIdx l n x (by simpa using h)
    rw [List.eraseIdx_cons_succ]
    exact (ih.cons a).trans (List.Perm.swap x a _)

/-- The remove-and-reinsert of `handleDragOver` is a permutation whenever the
destination index is in range (as it always is at the call site). -/
lemma moveItem_perm (l : List Item) (f t : Nat) (ht : t < l.length) :
    (moveItem l f t).Perm l := by
  unfold moveItem
  cases hf : l[f]? with
  | none => exact List.Perm.refl l
  | some x =>
    have hfl : f < l.length := by
      by_contra hge
      rw [List.getElem?_eq_none (by omega)] at hf
      exact Option.noConfusion hf
    have hlen : (l.eraseIdx f).length = l.length - 1 := List.length_eraseIdx_of_lt hfl
    have ht' : t ≤ (l.eraseIdx f).length := by omega
    exact (insertIdx_perm_cons x t _ ht').trans (perm_cons_eraseIdx l f x hf).symm

/-- Any sequence of in-range reorders is a permutation of the original. -/
lemma foldl_moveItem_perm :
    ∀ (ops : List (Nat × Nat)) (l : List Item),
      (∀ p ∈ ops, p.2 < l.length) →
      (ops.foldl (fun acc p => moveItem acc p.1 p.2) l).Perm l
  | [], l, _ => List.Perm.refl l
  | p :: ops, l, h => by
    have h1 : p.2 < l.length := h p (List.mem_cons_self p ops)
    have hperm := moveItem_perm l p.1 p.2 h1
    have hrest := foldl_moveItem_perm ops (moveItem l p.1 p.2) (fun q hq => by
      rw [hperm.length_eq]
      exact h q (List.mem_cons_of_mem p hq))
    rw [List.foldl_cons]
    exact hrest.trans hperm

/-- C7: every in-range reorder is a permutation of the item collection — the
multiset of ids is invariant, the dragged item lands at the destination
index, removing it again recovers the other items in their original relative
order — and the id multiset stays invariant across any sequence of in-range
reorders. -/
theorem cat_guess_C7 (l : List Item) (f t : Nat) (hf : f < l.length) (ht : t < l.length)
    (ops : List (Nat × Nat)) (hops : ∀ p ∈ ops, p.1 < l.length ∧ p.2 < l.length) :
    (moveItem l f t).Perm l ∧
    ((moveItem l f t).map Item.id).Perm (l.map Item.id) ∧
    (moveItem l f t)[t]? = l[f]? ∧
    (moveItem l f t).eraseIdx t = l.eraseIdx f ∧
    ((ops.foldl (fun acc p => moveItem acc p.1 p.2) l).map Item.id).Perm
      (l.map Item.id) := by
  have hperm := moveItem_perm l f t ht
  have hx : l[f]? = some l[f] := List.getElem?_eq_getElem hf
  have hmv : moveItem l f t = (l.eraseIdx f).insertIdx t l[f] := by
    unfold moveItem
    rw [hx]
  have hlen : (l.eraseIdx f).length = l.length - 1 := List.length_eraseIdx_of_lt hf
  have ht' : t ≤ (l.eraseIdx f).length := by omega
  refine ⟨hperm, hperm.map Item.id, ?_, ?_,
    (foldl_moveItem_perm ops l (fun p hp => (hops p hp).2)).map Item.id⟩
  · have hlen2 : ((l.eraseIdx f).insertIdx t l[f]).length = l.length := by
      rw [List.length_insertIdx _ _ ht', hlen]
      omega
    rw [hmv, hx, List.getElem?_eq_getElem (by omega : t < ((l.eraseIdx f).insertIdx t l[f]).length)]
    exact congrArg some (List.getElem_insertIdx_self _ _ _ ht')
  · rw [hmv]
    exact List.eraseIdx_insertIdx t _

/-- Witness for C7: moving the first of two items to the back, then a
two-step drag sequence. -/
theorem cat_guess_C7_witness :
    (moveItem [itemA, itemB] 0 1).Perm [itemA, itemB] ∧
    ((moveItem [itemA, itemB] 0 1).map Item.id).Perm ([itemA, itemB].map Item.id) ∧
    (moveItem [itemA, itemB] 0 1)[1]? = [itemA, itemB][0]? ∧
    (moveItem [itemA, itemB] 0 1).eraseIdx 1 = [itemA, itemB].eraseIdx 0 ∧
    (([(0, 1), (1, 0)].foldl (fun acc p => moveItem acc p.1 p.2)
        [itemA, itemB]).map Item.id).Perm ([itemA, itemB].map Item.id) :=
  cat_guess_C7 [itemA, itemB] 0 1 (by decide) (by decide) [(0, 1), (1, 0)] (by decide)

/-! Equation lemmas for the repository handlers. -/

/-- Delete is a no-op outside `idle`. -/
lemma handleDeleteItem_notIdle (s : AppState) (itemId : String)
    (h : s.gameState ≠ GameState.idle) : handleDeleteItem s itemId = s := by
  unfold handleDeleteItem
  rw [if_pos h]

/-- Delete on a collection of at most one item only sets the error banner. -/
lemma handleDeleteItem_small (s : AppState) (itemId : String)
    (h : s.gameState = GameState.idle) (hlen : s.items.length ≤ 1) :
    handleDeleteItem s itemId = { s with errorMsg := deleteErrorMsg } := by
  unfold handleDeleteItem
  rw [if_neg (by simp [h]), if_pos hlen]

/-- Delete in `idle` on two or more items filters the collection. -/
lemma handleDeleteItem_filter (s : AppState) (itemId : String)
    (h : s.gameState = GameState.idle) (hlen : ¬ s.items.length ≤ 1) :
    handleDeleteItem s itemId =
      { s with items := s.items.filter (fun it => it.id != itemId) } := by
  unfold handleDeleteItem
  rw [if_neg (by simp [h]), if_neg hlen]

/-- Drag-over without an armed drag source is a no-op. -/
lemma handleDragOver_none (s : AppState) (i : Nat)
    (hd : s.draggedItemIndex = none) : handleDragOver s i = s := by
  unfold handleDragOver
  rw [hd]

/-- Drag-over onto the dragged index itself is a no-op. -/
lemma handleDragOver_same (s : AppState) (i : Nat)
    (hd : s.draggedItemIndex = some i) : handleDragOver s i = s := by
  unfold handleDragOver
  rw [hd]
  exact if_pos rfl

/-- Drag-over onto a different index performs the splice move. -/
lemma handleDragOver_move (s : AppState) (f i : Nat)
    (hd : s.draggedItemIndex = some f) (hne : f ≠ i) :
    handleDragOver s i =
      { s with items := moveItem s.items f i, draggedItemIndex := some i } := by
  unfold handleDragOver
  rw [hd]
  exact if_neg hne

/-- Save with a pending image and nonempty name appends the new item. -/
lemma saveNewItem_eq (s : AppState) (freshId img : String)
    (himg : s.newItemImage = some img) (hname : s.newItemName ≠ "") :
    saveNewItem s freshId =
      { s with items := s.items ++ [{ id := freshId, name := s.newItemName, image := img }]
               isAddModalOpen := false
               newItemName := ""
               newItemImage := none } := by
  unfold saveNewItem
  rw [himg]
  exact if_pos hname

/-- Save with no pending image is a no-op. -/
lemma saveNewItem_noImage (s : AppState) (freshId : String)
    (himg : s.newItemImage = none) : saveNewItem s freshId = s := by
  unfold saveNewItem
  rw [himg]

/-- Save with an empty pending name is a no-op. -/
lemma saveNewItem_noName (s : AppState) (freshId img : String)
    (himg : s.newItemImage = some img) (hname : s.newItemName = "") :
    saveNewItem s freshId = s := by
  unfold saveNewItem
  rw [himg]
  exact if_neg (by simp [hname])

/-! The never-empty invariant of the repository. -/

/-- With at least two items of pairwise distinct ids, filtering one id out
leaves the collection nonempty. -/
lemma delete_keeps_nonempty (l : List Item) (itemId : String)
    (h2 : 2 ≤ l.length) (hnd : (l.map Item.id).Nodup) :
    l.filter (fun it => it.id != itemId) ≠ [] := by
  rcases l with _ | ⟨a, _ | ⟨b, t⟩⟩
  · simp at h2
  · simp at h2
  · have hab : a.id ≠ b.id := by
      rw [List.map_cons, List.map_cons, List.nodup_cons] at hnd
      exact fun h => hnd.1 (by rw [h]; exact List.mem_cons_self _ _)
    by_cases ha : a.id = itemId
    · refine List.ne_nil_of_mem (a := b) (List.mem_filter.mpr
        ⟨List.mem_cons_of_mem a (List.mem_cons_self b t), ?_⟩)
      simp only [bne_iff_ne, ne_eq]
      rw [ha] at hab
      exact fun h => hab h.symm
    · exact List.ne_nil_of_mem (List.mem_filter.mpr
        ⟨List.mem_cons_self a _, by simpa [bne_iff_ne] using ha⟩)

/-- Every valid repository operation preserves nonemptiness and id
uniqueness. -/
lemma applyRepoOp_good (s : AppState) (op : RepoOp)
    (hg : goodRepo s) (hv : validOp s op) : goodRepo (applyRepoOp s op) := by
  obtain ⟨hne, hnd⟩ := hg
  cases op with
  | deleteItem itemId =>
    show goodRepo (handleDeleteItem s itemId)
    by_cases h1 : s.gameState = GameState.idle
    · by_cases h2 : s.items.length ≤ 1
      · rw [handleDeleteItem_small s itemId h1 h2]
        exact ⟨hne, hnd⟩
      · rw [handleDeleteItem_filter s itemId h1 h2]
        refine ⟨delete_keeps_nonempty s.items itemId (by omega) hnd, ?_⟩
        exact List.Nodup.sublist ((List.filter_sublist _).map Item.id) hnd
    · rw [handleDeleteItem_notIdle s itemId h1]
      exact ⟨hne, hnd⟩
  | save freshId name image =>
    show goodRepo (saveNewItem { s with newItemName := name, newItemImage := some image } freshId)
    by_cases hn : name = ""
    · rw [saveNewItem_noName _ freshId image rfl hn]
      exact ⟨hne, hnd⟩
    · rw [saveNewItem_eq _ freshId image rfl hn]
      refine ⟨by simp, ?_⟩
      show ((s.items ++ [({ id := freshId, name := name, image := image } : Item)]).map Item.id).Nodup
      rw [List.map_append]
      refine List.Nodup.append hnd (List.nodup_singleton _) ?_
      intro x hx hx'
      rw [List.mem_singleton.mp hx'] at hx
      exact hv hx
  | dragStart i =>
    show goodRepo (handleDragStart s i)
    unfold handleDragStart
    by_cases h1 : s.gameState ≠ GameState.idle
    · rw [if_pos h1]
      exact ⟨hne, hnd⟩
    · rw [if_neg h1]
      exact ⟨hne, hnd⟩
  | dragOver i =>
    show goodRepo (handleDragOver s i)
    rcases hd : s.draggedItemIndex with _ | f
    · rw [handleDragOver_none s i hd]
      exact ⟨hne, hnd⟩
    · by_cases hf : f = i
      · rw [hf] at hd
        rw [handleDragOver_same s i hd]
        exact ⟨hne, hnd⟩
      · rw [handleDragOver_move s f i hd hf]
        have hperm := moveItem_perm s.items f i hv
        constructor
        · intro h
          have h' : moveItem s.items f i = [] := h
          rw [h'] at hperm
          exact hne (List.length_eq_zero.mp hperm.length_eq.symm)
        · exact ((hperm.map Item.id).nodup_iff).mpr hnd

/-- Valid operation sequences preserve the repository invariant. -/
lemma applyRepoOps_good :
    ∀ (ops : List RepoOp) (s : AppState), goodRepo s → validOps s ops →
      goodRepo (applyRepoOps s ops)
  | [], _, hg, _ => hg
  | op :: rest, s, hg, hv =>
    applyRepoOps_good rest _ (applyRepoOp_good s op hg hv.1) hv.2

/-- C1: deleting in `idle` from a one-item collection sets the user-visible
rejection message and performs no mutation, and starting from any repository
with distinct ids the collection stays nonempty across every valid sequence
of Add / Delete / Reorder operations. -/
theorem cat_guess_C1 :
    (∀ (s : AppState) (itemId : String), s.gameState = GameState.idle →
      s.items.length = 1 →
      (handleDeleteItem s itemId).items = s.items ∧
      (handleDeleteItem s itemId).errorMsg = deleteErrorMsg) ∧
    (∀ (s : AppState) (ops : List RepoOp), goodRepo s → validOps s ops →
      (applyRepoOps s ops).items ≠ []) := by
  constructor
  · intro s itemId hidle hone
    rw [handleDeleteItem_small s itemId hidle (by omega)]
    exact ⟨rfl, rfl⟩
  · intro s ops hg hv
    exact (applyRepoOps_good ops s hg hv).1

/-- Witness for C1: the rejected delete on a one-item state, and a five-step
valid operation sequence from the two-item base state. -/
theorem cat_guess_C1_witness :
    (handleDeleteItem { baseState with items := [itemA] } "a").items = [itemA] ∧
    (handleDeleteItem { baseState with items := [itemA] } "a").errorMsg = deleteErrorMsg ∧
    (applyRepoOps baseState
      [RepoOp.deleteItem "a", RepoOp.save "c" "C" "imgC", RepoOp.dragStart 0,
        RepoOp.dragOver 1, RepoOp.deleteItem "b"]).items ≠ [] := by
  have h1 := cat_guess_C1.1 { baseState with items := [itemA] } "a" rfl rfl
  have h2 := cat_guess_C1.2 baseState
    [RepoOp.deleteItem "a", RepoOp.save "c" "C" "imgC", RepoOp.dragStart 0,
      RepoOp.dragOver 1, RepoOp.deleteItem "b"]
    ⟨by decide, by decide⟩
    ⟨trivial, by unfold validOp; decide, by unfold validOp; decide,
      by unfold validOp; decide, trivial, trivial⟩
  exact ⟨h1.1, h1.2, h2⟩

/-! The cosmetic tick sequence versus the binding resolution draw. -/

/-- The interval ticks touch only `catChoice`. -/
lemma foldl_applyTick_eq (draws : List Nat) :
    ∀ s : AppState, ∃ c, draws.foldl applyTick s = { s with catChoice := c } := by
  induction draws with
  | nil => exact fun s => ⟨s.catChoice, rfl⟩
  | cons d rest ih =>
    intro s
    obtain ⟨c, hc⟩ := ih (applyTick s d)
    exact ⟨c, hc⟩

/-- The resolution ignores the `catChoice` left by the animation whenever the
resolution draw is in range. -/
lemma finalizeGuess_catChoice (s : AppState) (c : Option Item) (tg : Item) (d : Nat)
    (hd : d < s.items.length) :
    finalizeGuess { s with catChoice := c } tg d = finalizeGuess s tg d := by
  have hx : s.items[d]? = some s.items[d] := List.getElem?_eq_getElem hd
  by_cases h : (s.items[d]).id = tg.id
  · rw [finalizeGuess_eq_pos { s with catChoice := c } tg d s.items[d] hx h,
      finalizeGuess_eq_pos s tg d s.items[d] hx h]
  · rw [finalizeGuess_eq_neg { s with catChoice := c } tg d s.items[d] hx h,
      finalizeGuess_eq_neg s tg d s.items[d] hx h]

/-- Counting winning resolution draws over the index range equals counting
items whose id matches the target's. -/
lemma countP_range_guessOutcome :
    ∀ (l : List Item) (tg : Item),
      (List.range l.length).countP (guessOutcome l tg) =
        l.countP (fun it => it.id == tg.id)
  | [], _ => by simp
  | x :: xs, tg => by
    have ih := countP_range_guessOutcome xs tg
    have hcomp : guessOutcome (x :: xs) tg ∘ Nat.succ = guessOutcome xs tg := by
      funext d
      simp only [Function.comp_apply, Nat.succ_eq_add_one]
      unfold guessOutcome
      rw [List.getElem?_cons_succ]
    have h0 : guessOutcome (x :: xs) tg 0 = (x.id == tg.id) := by
      unfold guessOutcome
      rw [List.getElem?_cons_zero]
    rw [List.length_cons, List.range_succ_eq_map, List.countP_cons,
      List.countP_map, hcomp, ih, h0, List.countP_cons]

/-- In a repository with pairwise distinct ids, exactly one item carries the
id of a member. -/
lemma countP_id_eq_one :
    ∀ (l : List Item) (tg : Item), (l.map Item.id).Nodup → tg ∈ l →
      l.countP (fun it => it.id == tg.id) = 1
  | [], _, _, hm => absurd hm (List.not_mem_nil _)
  | x :: xs, tg, hnd, hm => by
    rw [List.map_cons, List.nodup_cons] at hnd
    obtain ⟨hxnotin, hnd'⟩ := hnd
    rw [List.countP_cons]
    rcases List.mem_cons.mp hm with rfl | hm'
    · have hzero : xs.countP (fun it => it.id == tg.id) = 0 := by
        rw [List.countP_eq_zero]
        intro it hit
        simp only [beq_iff_eq]
        intro heq
        exact hxnotin (heq ▸ List.mem_map_of_mem Item.id hit)
      rw [hzero]
      simp
    · have hx : ¬ (x.id == tg.id) = true := by
        simp only [beq_iff_eq]
        intro heq
        exact hxnotin (heq ▸ List.mem_map_of_mem Item.id hm')
      rw [countP_id_eq_one xs tg hnd' hm', if_neg hx]

/-- C2: the guess outcome depends only on the resolution draw — two cycles
with the same final draw but arbitrary twelve-tick focus sequences end in the
same state — the final state is `success` exactly when the drawn item's id
matches the target's, and exactly one of the `N` equiprobable resolution
draws wins, so the win probability is `1/N`. -/
theorem cat_guess_C2 (s : AppState) (userTarget : Item) (t1 t2 : List Nat)
    (finalDraw : Nat) (h1 : t1.length = 12) (h2 : t2.length = 12)
    (hf : finalDraw < s.items.length) (hnd : (s.items.map Item.id).Nodup)
    (hmem : userTarget ∈ s.items) :
    runGuessCycle s userTarget t1 finalDraw = runGuessCycle s userTarget t2 finalDraw ∧
    ((runGuessCycle s userTarget t1 finalDraw).1.gameState = GameState.success ↔
      guessOutcome s.items userTarget finalDraw = true) ∧
    (List.range s.items.length).countP (guessOutcome s.items userTarget) = 1 := by
  have key : ∀ tD : List Nat,
      runGuessCycle s userTarget tD finalDraw =
        finalizeGuess (startCatGuessing s) userTarget finalDraw := by
    intro tD
    obtain ⟨c, hc⟩ := foldl_applyTick_eq tD (startCatGuessing s)
    unfold runGuessCycle
    rw [hc]
    exact finalizeGuess_catChoice (startCatGuessing s) c userTarget finalDraw hf
  have hx : s.items[finalDraw]? = some s.items[finalDraw] :=
    List.getElem?_eq_getElem hf
  have hout : guessOutcome s.items userTarget finalDraw =
      ((s.items[finalDraw]).id == userTarget.id) := by
    unfold guessOutcome
    rw [hx]
  refine ⟨(key t1).trans (key t2).symm, ?_,
    by rw [countP_range_guessOutcome, countP_id_eq_one s.items userTarget hnd hmem]⟩
  rw [key t1, hout]
  by_cases h : (s.items[finalDraw]).id = userTarget.id
  · rw [finalizeGuess_eq_pos (startCatGuessing s) userTarget finalDraw s.items[finalDraw] hx h]
    simp [h]
  · rw [finalizeGuess_eq_neg (startCatGuessing s) userTarget finalDraw s.items[finalDraw] hx h]
    simp [h]

/-- Witness for C2: two twelve-tick cycles on the two-item base state with
opposite focus sequences but the same resolution draw. -/
theorem cat_guess_C2_witness :
    runGuessCycle baseState itemA [0, 0, 0, 0, 0, 0, 0, 0, 0, 0, 0, 0] 0 =
      runGuessCycle baseState itemA [1, 1, 1, 1, 1, 1, 1, 1, 1, 1, 1, 1] 0 ∧
    ((runGuessCycle baseState itemA [0, 0, 0, 0, 0, 0, 0, 0, 0, 0, 0, 0] 0).1.gameState =
        GameState.success ↔
      guessOutcome baseState.items itemA 0 = true) ∧
    (List.range baseState.items.length).countP (guessOutcome baseState.items itemA) = 1 :=
  cat_guess_C2 baseState itemA [0, 0, 0, 0, 0, 0, 0, 0, 0, 0, 0, 0]
    [1, 1, 1, 1, 1, 1, 1, 1, 1, 1, 1, 1] 0 rfl rfl (by decide) (by decide) (by decide)

/-- C8 counterexample: for the bounds pair `(600, 300)` and a 500 × 400
input, the compressor takes the landscape branch, checks only the width
bound, and returns 500 × 400 — the output height 400 exceeds the height
bound 300, refuting the claim for arbitrary bounds pairs. -/
theorem cat_guess_C8_cex :
    compressImageDims 500 400 600 300 = (500, 400) ∧ (300 : ℚ) < 400 := by
  constructor
  · unfold compressImageDims
    norm_num
  · norm_num

/-- C8 as amended: scaling always preserves the aspect ratio (stated by cross
multiplication) and never upscales an image already within both bounds, and
under equal bounds `maxWidth = maxHeight = M` — in particular the source's
only call, with the 400 × 400 default — neither output dimension exceeds the
bound.  For unequal bounds only the branch-selected bound is enforced, as the
counterexample shows. -/
theorem cat_guess_C8_amended (w h maxW maxH M : ℚ) (hw : 0 < w) (hh : 0 < h)
    (hM : 0 < M) :
    (compressImageDims w h maxW maxH).1 * h = (compressImageDims w h maxW maxH).2 * w ∧
    (w ≤ maxW → h ≤ maxH → compressImageDims w h maxW maxH = (w, h)) ∧
    (compressImageDims w h M M).1 ≤ M ∧
    (compressImageDims w h M M).2 ≤ M := by
  refine ⟨?_, ?_, ?_⟩
  · unfold compressImageDims
    split_ifs with h1 h2 h3
    · field_simp
      ring
    · ring
    · field_simp
      ring
    · ring
  · intro hwb hhb
    unfold compressImageDims
    split_ifs with h1 h2 h3
    · linarith
    · rfl
    · linarith
    · rfl
  · unfold compressImageDims
    split_ifs with h1 h2 h3
    · constructor
      · simp
      · simp only
        rw [mul_div_assoc', div_le_iff₀ hw]
        nlinarith
    · constructor
      · simp only
        linarith
      · simp only
        linarith
    · constructor
      · simp only
        rw [← mul_div_assoc, div_le_iff₀ hh]
        nlinarith
      · simp
    · constructor
      · simp only
        linarith
      · simp only
        linarith

/-- Witness for the amended C8 at a concrete 500 × 400 image with the default
equal bounds 400 × 400. -/
theorem cat_guess_C8_amended_witness :
    (compressImageDims 500 400 600 300).1 * 400 =
      (compressImageDims 500 400 600 300).2 * 500 ∧
    ((500 : ℚ) ≤ 600 → (400 : ℚ) ≤ 300 →
      compressImageDims 500 400 600 300 = (500, 400)) ∧
    (compressImageDims 500 400 400 400).1 ≤ 400 ∧
    (compressImageDims 500 400 400 400).2 ≤ 400 :=
  cat_guess_C8_amended 500 400 600 300 400 (by norm_num) (by norm_num) (by norm_num)

end CatGuess
